import Mathlib

/-!
# Aurora FlatSat ingestion / encoding layer: a shallow embedding

This file embeds the protocol-encoding core of the Aurora FlatSat test
equipment (rate-sensor, magnetometer and reaction-wheel encoders, and the
TCP/UDP channel listeners with endianness detection) as executable Lean
definitions, and proves or refutes the specification claims about them.

Modelling conventions:

* Python floats are modelled by `PFloat`: an exact rational for finite
  values plus the IEEE-754 specials (NaN, plus and minus infinity).
  Arithmetic on finite values is exact rational arithmetic; decimal
  literals such as 0.1 or 1e-6 are read as the exact rationals they denote.
  Decoding of raw 8-byte doubles is modelled bit-exactly.
* Byte strings are `List Nat`, each entry intended to lie below 256; the
  packing helpers only produce such entries.
* Stateful Python objects (message counters, sequence counters, quality
  counters) are modelled by explicit state passing.
-/

namespace Aurora

/-- Model of a Python float: an exact finite rational or an IEEE-754
special value. -/
inductive PFloat where
  | finite (q : ℚ)
  | nan
  | inf
  | neginf
deriving DecidableEq

/-- Whether a `PFloat` is an ordinary finite value. -/
def PFloat.isFinite : PFloat → Bool
  | .finite _ => true
  | _ => false

/-- Python `int(x)` on a finite float: truncation toward zero. -/
def ratTrunc (q : ℚ) : ℤ := if 0 ≤ q then ⌊q⌋ else ⌈q⌉

/-- `struct.pack('<h', n)`: little-endian two's-complement 16-bit. -/
def packInt16le (n : ℤ) : List ℕ :=
  let u := (n % 65536).toNat
  [u % 256, u / 256 % 256]

/-- `struct.pack('<i', n)`: little-endian two's-complement 32-bit. -/
def packInt32le (n : ℤ) : List ℕ :=
  let u := (n % 4294967296).toNat
  [u % 256, u / 256 % 256, u / 65536 % 256, u / 16777216 % 256]

/-- `struct.pack('<H', n)`: little-endian unsigned 16-bit. -/
def packUInt16le (n : ℕ) : List ℕ := [n % 256, n / 256 % 256]

/-- `struct.pack('>H', n)`: big-endian unsigned 16-bit. -/
def packUInt16be (n : ℕ) : List ℕ := [n / 256 % 256, n % 256]

/-- Read a little-endian 16-bit byte pair back as a signed integer. -/
def decodeInt16le (bs : List ℕ) : ℤ :=
  let u : ℤ := bs.getD 0 0 + 256 * bs.getD 1 0
  if u < 32768 then u else u - 65536

/-- Read a little-endian 32-bit byte quadruple back as a signed integer. -/
def decodeInt32le (bs : List ℕ) : ℤ :=
  let u : ℤ := bs.getD 0 0 + 256 * bs.getD 1 0 + 65536 * bs.getD 2 0
    + 16777216 * bs.getD 3 0
  if u < 2147483648 then u else u - 4294967296

/-! ## Rate sensor encoder (`installer_complete/device_encoders/ars_encoder.py`) -/

/-- `MessageEncoder.ANGULAR_RATE_SCALE = 600 * (2 ** -23)` rad/sec per LSB. -/
def ANGULAR_RATE_SCALE : ℚ := 600 / 2 ^ 23

/-- `MessageEncoder.ANGLE_SCALE = 2 ** -27` rad per LSB. -/
def ANGLE_SCALE : ℚ := 1 / 2 ^ 27

/-- The extreme-value guard shared by `encode_angular_rate` and
`encode_angle`: values with `abs(v) > 1e6` are clamped into
`[-1e6, 1e6]` before scaling. -/
def clampExtreme (q : ℚ) : ℚ :=
  if |q| > 1000000 then max (-1000000) (min 1000000 q) else q

/-- The finite value actually handed to `int(value / scale)` by the guard
code in `encode_angular_rate` / `encode_angle`: infinities fall under the
`abs > 1e6` clamp, while `int(nan / scale)` raises and the exception
handler substitutes the zero encoding (`none` here). -/
def toScalable : PFloat → Option ℚ
  | .nan => none
  | .inf => some 1000000
  | .neginf => some (-1000000)
  | .finite q => some (clampExtreme q)

/-- `MessageEncoder.encode_angular_rate`: scale by `ANGULAR_RATE_SCALE`,
truncate (`int(...)`), clamp to the signed 16-bit range, pack `<h`. -/
def encode_angular_rate (v : PFloat) : List ℕ :=
  match toScalable v with
  | none => packInt16le 0
  | some q => packInt16le (max (-32768) (min 32767 (ratTrunc (q / ANGULAR_RATE_SCALE))))

/-- `MessageEncoder.encode_angle`: scale by `ANGLE_SCALE`, truncate,
clamp to the signed 32-bit range, pack `<i`. -/
def encode_angle (v : PFloat) : List ℕ :=
  match toScalable v with
  | none => packInt32le 0
  | some q => packInt32le (max (-2147483648) (min 2147483647 (ratTrunc (q / ANGLE_SCALE))))

/-- `RateSensorPacket` (Honeywell frame contents before serialization). -/
structure RateSensorPacket where
  angular_rate_x : PFloat := .finite 0
  angular_rate_y : PFloat := .finite 0
  angular_rate_z : PFloat := .finite 0
  status_word_1 : ℕ := 0
  status_word_2 : ℕ := 0
  status_word_3 : ℕ := 0
  summed_angle_x : PFloat := .finite 0
  summed_angle_y : PFloat := .finite 0
  summed_angle_z : PFloat := .finite 0
deriving DecidableEq

/-- The frame body between the sync byte and the checksum: three rates,
three status words, three angles. -/
def messageBody (p : RateSensorPacket) : List ℕ :=
  encode_angular_rate p.angular_rate_x ++ encode_angular_rate p.angular_rate_y ++
    encode_angular_rate p.angular_rate_z ++
    packUInt16le p.status_word_1 ++ packUInt16le p.status_word_2 ++
    packUInt16le p.status_word_3 ++
    encode_angle p.summed_angle_x ++ encode_angle p.summed_angle_y ++
    encode_angle p.summed_angle_z

/-- `MessageEncoder.encode_message`: sync byte 0xAA, body, then the 16-bit
checksum `sum(message[1:]) & 0xFFFF` packed little-endian. -/
def encode_message (p : RateSensorPacket) : List ℕ :=
  let body := messageBody p
  let checksum := body.sum % 65536
  0xAA :: (body ++ packUInt16le checksum)

theorem length_packInt16le (n : ℤ) : (packInt16le n).length = 2 := rfl

theorem length_packInt32le (n : ℤ) : (packInt32le n).length = 4 := rfl

theorem length_packUInt16le (n : ℕ) : (packUInt16le n).length = 2 := rfl

theorem length_encode_angular_rate (v : PFloat) : (encode_angular_rate v).length = 2 := by
  cases v <;> simp [encode_angular_rate, toScalable, packInt16le]

theorem length_encode_angle (v : PFloat) : (encode_angle v).length = 4 := by
  cases v <;> simp [encode_angle, toScalable, packInt32le]

/-- `StatusWordBuilder.build_status_word_1` (Table 7): 2-bit counter,
2-bit BIT-mode at bits 2-3, latched failure bits at 4, 5 and 7. -/
def build_status_word_1 (counter bit_mode : ℕ)
    (rate_sensor_failed gyro_failed agc_voltage_failed : Bool) : ℕ :=
  let w := counter &&& 0x03
  let w := w ||| ((bit_mode &&& 0x03) <<< 2)
  let w := if rate_sensor_failed then w ||| (1 <<< 4) else w
  let w := if gyro_failed then w ||| (1 <<< 5) else w
  let w := if agc_voltage_failed then w ||| (1 <<< 7) else w
  w &&& 0xFFFF

/-- `StatusWordBuilder.build_status_word_2` (Table 8): 8-bit temperature
plus four fault bits at 8-11. -/
def build_status_word_2 (gyro_temperature_a : ℕ)
    (motor_bias_voltage_failed start_data_flag processor_failed memory_failed : Bool) : ℕ :=
  let w := gyro_temperature_a &&& 0xFF
  let w := if motor_bias_voltage_failed then w ||| (1 <<< 8) else w
  let w := if start_data_flag then w ||| (1 <<< 9) else w
  let w := if processor_failed then w ||| (1 <<< 10) else w
  let w := if memory_failed then w ||| (1 <<< 11) else w
  w &&& 0xFFFF

/-- `StatusWordBuilder.build_status_word_3` (Table 9): gyro start/run bits
at 8-10, per-gyro FDC bits at 11-13, FDC-failed at 14, RS-OK at 15. -/
def build_status_word_3
    (gyro_a_start_run gyro_b_start_run gyro_c_start_run : Bool)
    (gyro_a_fdc gyro_b_fdc gyro_c_fdc fdc_failed rs_ok : Bool) : ℕ :=
  let w := if gyro_a_start_run then 0 ||| (1 <<< 8) else 0
  let w := if gyro_b_start_run then w ||| (1 <<< 9) else w
  let w := if gyro_c_start_run then w ||| (1 <<< 10) else w
  let w := if gyro_a_fdc then w ||| (1 <<< 11) else w
  let w := if gyro_b_fdc then w ||| (1 <<< 12) else w
  let w := if gyro_c_fdc then w ||| (1 <<< 13) else w
  let w := if fdc_failed then w ||| (1 <<< 14) else w
  let w := if rs_ok then w ||| (1 <<< 15) else w
  w &&& 0xFFFF

/-- `ARSData`: the twelve floats of a full primary + redundant sample. -/
structure ARSData where
  prime_x : PFloat := .finite 0
  prime_y : PFloat := .finite 0
  prime_z : PFloat := .finite 0
  redundant_x : PFloat := .finite 0
  redundant_y : PFloat := .finite 0
  redundant_z : PFloat := .finite 0
  prime_angle_x : PFloat := .finite 0
  prime_angle_y : PFloat := .finite 0
  prime_angle_z : PFloat := .finite 0
  redundant_angle_x : PFloat := .finite 0
  redundant_angle_y : PFloat := .finite 0
  redundant_angle_z : PFloat := .finite 0
deriving DecidableEq

/-- Python float subtraction, lifted to the specials (exact on finite
values). -/
def PFloat.sub : PFloat → PFloat → PFloat
  | .nan, _ => .nan
  | _, .nan => .nan
  | .finite a, .finite b => .finite (a - b)
  | .inf, .inf => .nan
  | .inf, _ => .inf
  | .neginf, .neginf => .nan
  | .neginf, _ => .neginf
  | .finite _, .inf => .neginf
  | .finite _, .neginf => .inf

/-- Python `abs` on floats. -/
def PFloat.absF : PFloat → PFloat
  | .finite a => .finite |a|
  | .nan => .nan
  | _ => .inf

/-- Python `a > b` on floats: any comparison with NaN is false. -/
def PFloat.gtB : PFloat → PFloat → Bool
  | .nan, _ => false
  | _, .nan => false
  | .finite a, .finite b => decide (b < a)
  | .inf, .inf => false
  | .inf, _ => true
  | _, .inf => false
  | .neginf, _ => false
  | _, .neginf => true

/-- Python `a > c` against a finite constant. -/
def PFloat.gtQ (a : PFloat) (c : ℚ) : Bool := a.gtB (.finite c)

/-- Python `max(a, b)`: keeps the current value unless the candidate
compares strictly greater. -/
def pymax (a b : PFloat) : PFloat := if b.gtB a then b else a

/-- Python `v != 0` on a float (true for NaN and the infinities). -/
def pfloatNeZero (v : PFloat) : Bool := decide (v ≠ .finite 0)

/-- The `has_data` test of `ARSEncoder._update_status_words`: some primary
or redundant rate of the current sample is non-zero. -/
def hasData (d : ARSData) : Bool :=
  (pfloatNeZero d.prime_x || pfloatNeZero d.prime_y || pfloatNeZero d.prime_z) ||
    (pfloatNeZero d.redundant_x || pfloatNeZero d.redundant_y || pfloatNeZero d.redundant_z)

/-- The `has_discrepancy` test of `ARSEncoder._update_status_words`:
`max(|prime - redundant|) > 0.1` over the three rate axes. -/
def hasDiscrepancy (d : ARSData) : Bool :=
  let rate_diff_x := (d.prime_x.sub d.redundant_x).absF
  let rate_diff_y := (d.prime_y.sub d.redundant_y).absF
  let rate_diff_z := (d.prime_z.sub d.redundant_z).absF
  (pymax (pymax rate_diff_x rate_diff_y) rate_diff_z).gtQ (1 / 10)

/-- `ARSEncoder._update_status_words`: derive the three status words from
the current sample and the pre-increment message counter. -/
def update_status_words (message_counter : ℕ) (d : ARSData) : ℕ × ℕ × ℕ :=
  let hd := hasData d
  let disc := hasDiscrepancy d
  (build_status_word_1 (message_counter % 4) 1 (!hd) disc false,
   build_status_word_2 25 false false false false,
   build_status_word_3 hd hd hd disc disc disc disc (hd && !disc))

/-- `ARSEncoder.convert_ars_data`: primary channels become the packet
fields, status words are derived, the message counter increments. -/
def convert_ars_data (message_counter : ℕ) (d : ARSData) : RateSensorPacket × ℕ :=
  let sw := update_status_words message_counter d
  ({ angular_rate_x := d.prime_x
     angular_rate_y := d.prime_y
     angular_rate_z := d.prime_z
     status_word_1 := sw.1
     status_word_2 := sw.2.1
     status_word_3 := sw.2.2
     summed_angle_x := d.prime_angle_x
     summed_angle_y := d.prime_angle_y
     summed_angle_z := d.prime_angle_z }, message_counter + 1)

/-- `ARSEncoder.convert_matlab_data`. A 6-float list is accepted only when
`duplicate_to_redundant` is on, the redundant channels then being produced
by `_add_variation`, modelled by the oracle `vary` (the random factor and
its overflow guards are irrelevant to the claims below). A 12-float list
is taken as primary + redundant verbatim; any other length is rejected. -/
def convert_matlab_data (dup : Bool) (vary : PFloat → PFloat) :
    List PFloat → Option ARSData
  | [a, b, c, d, e, f] =>
    if dup then
      some { prime_x := a, prime_y := b, prime_z := c,
             redundant_x := vary a, redundant_y := vary b, redundant_z := vary c,
             prime_angle_x := d, prime_angle_y := e, prime_angle_z := f,
             redundant_angle_x := vary d, redundant_angle_y := vary e,
             redundant_angle_z := vary f }
    else none
  | [a, b, c, d, e, f, g, h, i, j, k, l] =>
    some { prime_x := a, prime_y := b, prime_z := c,
           redundant_x := d, redundant_y := e, redundant_z := f,
           prime_angle_x := g, prime_angle_y := h, prime_angle_z := i,
           redundant_angle_x := j, redundant_angle_y := k, redundant_angle_z := l }
  | _ => none

/-- `ARSEncoder.process_matlab_data`: full pipeline from the input float
list to the encoded frame, threading the message counter. -/
def process_matlab_data (dup : Bool) (vary : PFloat → PFloat)
    (message_counter : ℕ) (xs : List PFloat) : Option (List ℕ) × ℕ :=
  match convert_matlab_data dup vary xs with
  | none => (none, message_counter)
  | some d =>
    let pc := convert_ars_data message_counter d
    (some (encode_message pc.1), pc.2)

/-- Run `ARSEncoder` over a list of successive MATLAB inputs, collecting
the converted packets (for trace-level claims about status words). -/
def runARSPackets (dup : Bool) (vary : PFloat → PFloat) :
    ℕ → List (List PFloat) → List (Option RateSensorPacket)
  | _, [] => []
  | c, xs :: rest =>
    match convert_matlab_data dup vary xs with
    | none => none :: runARSPackets dup vary c rest
    | some d =>
      let pc := convert_ars_data c d
      some pc.1 :: runARSPackets dup vary pc.2 rest

theorem length_messageBody (p : RateSensorPacket) : (messageBody p).length = 24 := by
  simp [messageBody, length_encode_angular_rate, length_encode_angle, length_packUInt16le]

theorem length_encode_message (p : RateSensorPacket) : (encode_message p).length = 27 := by
  simp [encode_message, length_messageBody, length_packUInt16le]

/-- The all-zero 12-float MATLAB input, used as a concrete test vector. -/
def zeroInput12 : List PFloat :=
  [.finite 0, .finite 0, .finite 0, .finite 0, .finite 0, .finite 0,
   .finite 0, .finite 0, .finite 0, .finite 0, .finite 0, .finite 0]

theorem process_zeroInput12 :
    process_matlab_data false (fun v => v) 0 zeroInput12 =
      (some (encode_message (convert_ars_data 0 {}).1), 1) := by
  simp [process_matlab_data, convert_matlab_data, zeroInput12]
  rfl

/-- C1 counterexample: the all-zero 12-float input is accepted and its
encoded frame has 27 bytes, not 23 — the spec's byte total miscounts the
sum 1 + 3×2 + 3×2 + 3×4 + 2. -/
theorem ars_frame_length_counterexample :
    (process_matlab_data false (fun v => v) 0 zeroInput12).1 ≠ none ∧
    ((process_matlab_data false (fun v => v) 0 zeroInput12).1.getD []).length = 27 ∧
    ¬ ((process_matlab_data false (fun v => v) 0 zeroInput12).1.getD []).length = 23 := by
  rw [process_zeroInput12]
  refine ⟨by simp, ?_, ?_⟩ <;> simp [length_encode_message]

/-- C1 (amended): every accepted 6- or 12-float input yields a frame of
exactly 27 bytes: one sync byte, three 2-byte angular rates, three 2-byte
status words, three 4-byte angles and a trailing 2-byte checksum, the
multi-byte fields packed little-endian by the field encoders. -/
theorem ars_accepted_frame_layout (dup : Bool) (vary : PFloat → PFloat)
    (c : ℕ) (xs : List PFloat) (frame : List ℕ) (c2 : ℕ)
    (h : process_matlab_data dup vary c xs = (some frame, c2)) :
    frame.length = 27 ∧
    (∀ v, (encode_angular_rate v).length = 2) ∧
    (∀ n, (packUInt16le n).length = 2) ∧
    (∀ v, (encode_angle v).length = 4) ∧
    ∃ p : RateSensorPacket,
      frame = 0xAA ::
        (encode_angular_rate p.angular_rate_x ++ encode_angular_rate p.angular_rate_y ++
          encode_angular_rate p.angular_rate_z ++
          packUInt16le p.status_word_1 ++ packUInt16le p.status_word_2 ++
          packUInt16le p.status_word_3 ++
          encode_angle p.summed_angle_x ++ encode_angle p.summed_angle_y ++
          encode_angle p.summed_angle_z ++
          packUInt16le ((messageBody p).sum % 65536)) := by
  unfold process_matlab_data at h
  cases hc : convert_matlab_data dup vary xs with
  | none => rw [hc] at h; simp at h
  | some d =>
    rw [hc] at h
    have hframe : frame = encode_message (convert_ars_data c d).1 := by
      simpa using congrArg Prod.fst h.symm
    subst hframe
    refine ⟨length_encode_message _, fun v => length_encode_angular_rate v,
      fun n => rfl, fun v => length_encode_angle v, (convert_ars_data c d).1, ?_⟩
    simp [encode_message, messageBody, List.append_assoc]

/-- C1 amended-claim witness at a concrete accepted input. -/
theorem ars_accepted_frame_layout_witness :
    (encode_message (convert_ars_data 0 {}).1).length = 27 :=
  (ars_accepted_frame_layout false (fun v => v) 0 zeroInput12
    (encode_message (convert_ars_data 0 {}).1) 1 process_zeroInput12).1

/-- C3: in every frame produced by the rate-sensor encoder, the unsigned
sum of the bytes between the sync byte and the final two bytes, modulo
65536, equals the little-endian 16-bit value stored in the final two
bytes. -/
theorem ars_checksum_correct (p : RateSensorPacket) :
    ∃ body b0 b1, encode_message p = 0xAA :: (body ++ [b0, b1]) ∧
      body.length = 24 ∧ body.sum % 65536 = b0 + 256 * b1 := by
  refine ⟨messageBody p, (messageBody p).sum % 65536 % 256,
    (messageBody p).sum % 65536 / 256 % 256, rfl, length_messageBody p, ?_⟩
  have h : (messageBody p).sum % 65536 < 65536 := Nat.mod_lt _ (by norm_num)
  omega

theorem ratTrunc_of_nonneg {q : ℚ} (h : 0 ≤ q) : ratTrunc q = ⌊q⌋ := if_pos h

theorem ratTrunc_of_neg {q : ℚ} (h : ¬ 0 ≤ q) : ratTrunc q = ⌈q⌉ := if_neg h

theorem le_ratTrunc_div {x S : ℚ} {c : ℤ} (hS : 0 < S) (hx : 0 ≤ x)
    (h : (c : ℚ) * S ≤ x) : c ≤ ratTrunc (x / S) := by
  rw [ratTrunc_of_nonneg (div_nonneg hx hS.le)]
  exact Int.le_floor.2 ((le_div_iff hS).2 h)

theorem ratTrunc_div_le {x S : ℚ} {c : ℤ} (hS : 0 < S) (hx : ¬ 0 ≤ x / S)
    (h : x ≤ (c : ℚ) * S) : ratTrunc (x / S) ≤ c := by
  rw [ratTrunc_of_neg hx]
  exact Int.ceil_le.2 ((div_le_iff hS).2 h)

/-- Saturating a truncated quotient is insensitive to the `abs > 1e6`
pre-clamp, provided the saturation bounds both scale to within 1e6. -/
theorem sat_ratTrunc_clampExtreme {S : ℚ} {lo hi : ℤ} (hS : 0 < S)
    (hhi : (hi : ℚ) * S ≤ 1000000) (hlo : -1000000 ≤ (lo : ℚ) * S)
    (hlohi : lo ≤ hi) (q : ℚ) :
    max lo (min hi (ratTrunc (clampExtreme q / S))) =
      max lo (min hi (ratTrunc (q / S))) := by
  by_cases habs : |q| > 1000000
  · rcases lt_or_le q 0 with hq | hq
    · have hql : q < -1000000 := by
        rcases abs_cases q with ⟨h1, _⟩ | ⟨h1, _⟩ <;> linarith
      have hclamp : clampExtreme q = -1000000 := by
        unfold clampExtreme
        rw [if_pos habs, min_eq_right (by linarith), max_eq_left (by linarith)]
      have hneg1 : ¬ 0 ≤ (-1000000 : ℚ) / S := by
        simpa using not_le.2 (div_neg_of_neg_of_pos (by norm_num) hS)
      have hneg2 : ¬ 0 ≤ q / S := by
        simpa using not_le.2 (div_neg_of_neg_of_pos hq hS)
      have t1 : ratTrunc ((-1000000 : ℚ) / S) ≤ lo := ratTrunc_div_le hS hneg1 (by linarith)
      have t2 : ratTrunc (q / S) ≤ lo := ratTrunc_div_le hS hneg2 (by linarith)
      rw [hclamp]
      omega
    · have hqg : 1000000 < q := by
        rcases abs_cases q with ⟨h1, _⟩ | ⟨h1, _⟩ <;> linarith
      have hclamp : clampExtreme q = 1000000 := by
        unfold clampExtreme
        rw [if_pos habs, min_eq_left (by linarith), max_eq_right (by linarith)]
      have t1 : hi ≤ ratTrunc ((1000000 : ℚ) / S) :=
        le_ratTrunc_div hS (by norm_num) (by linarith)
      have t2 : hi ≤ ratTrunc (q / S) := le_ratTrunc_div hS (by linarith) (by linarith)
      rw [hclamp]
      omega
  · unfold clampExtreme
    rw [if_neg habs]

theorem decodeInt16le_packInt16le {n : ℤ} (h1 : -32768 ≤ n) (h2 : n ≤ 32767) :
    decodeInt16le (packInt16le n) = n := by
  simp only [packInt16le, decodeInt16le, List.getD, List.get?, Option.getD_some]
  split <;> omega

theorem decodeInt32le_packInt32le {n : ℤ} (h1 : -2147483648 ≤ n) (h2 : n ≤ 2147483647) :
    decodeInt32le (packInt32le n) = n := by
  simp only [packInt32le, decodeInt32le, List.getD, List.get?, Option.getD_some]
  split <;> omega

/-- C2 counterexample: at rate input `450 × 2⁻²³` rad/s the quotient by the
scale factor is 3/4; the code truncates it to 0 while the claimed rounding
gives 1, so the encoded field is not `round(r / scale)`. -/
theorem ars_rate_round_counterexample :
    encode_angular_rate (.finite (450 / 2 ^ 23)) ≠
      packInt16le (max (-32768) (min 32767
        (round ((450 / 2 ^ 23 : ℚ) / ANGULAR_RATE_SCALE)))) := by
  have hq : ((450 / 2 ^ 23 : ℚ) / ANGULAR_RATE_SCALE) = 3 / 4 := by
    norm_num [ANGULAR_RATE_SCALE]
  have hl : encode_angular_rate (.finite (450 / 2 ^ 23)) = packInt16le 0 := by
    simp only [encode_angular_rate, toScalable]
    have hcl : clampExtreme (450 / 2 ^ 23) = 450 / 2 ^ 23 := by
      unfold clampExtreme
      rw [if_neg (by rw [abs_of_pos (by positivity)]; norm_num)]
    rw [hcl, hq, ratTrunc_of_nonneg (by norm_num)]
    norm_num
  have hr : round ((450 / 2 ^ 23 : ℚ) / ANGULAR_RATE_SCALE) = 1 := by
    rw [hq]
    norm_num [round_eq]
  rw [hl, hr]
  intro hcontra
  have hbyte := congrArg (fun l => l.getD 0 0) hcontra
  simp only [packInt16le, List.getD, List.get?, Option.getD_some] at hbyte
  omega

/-- C2 (amended): for every finite rate r the 16-bit field decodes to
`trunc(r / (600 × 2⁻²³))` (truncation toward zero, not rounding) saturated
to the signed 16-bit range, and for every finite angle the 32-bit field
decodes to `trunc(a / 2⁻²⁷)` saturated to the signed 32-bit range, both
packed little-endian. -/
theorem ars_fixed_point_trunc_saturate (q : ℚ) :
    decodeInt16le (encode_angular_rate (.finite q)) =
      max (-32768) (min 32767 (ratTrunc (q / ANGULAR_RATE_SCALE))) ∧
    decodeInt32le (encode_angle (.finite q)) =
      max (-2147483648) (min 2147483647 (ratTrunc (q / ANGLE_SCALE))) := by
  constructor
  · have habs : max (-32768 : ℤ) (min 32767 (ratTrunc (clampExtreme q / ANGULAR_RATE_SCALE))) =
        max (-32768) (min 32767 (ratTrunc (q / ANGULAR_RATE_SCALE))) := by
      refine sat_ratTrunc_clampExtreme ?_ ?_ ?_ ?_ q
      · norm_num [ANGULAR_RATE_SCALE]
      · norm_num [ANGULAR_RATE_SCALE]
      · norm_num [ANGULAR_RATE_SCALE]
      · norm_num
    calc decodeInt16le (encode_angular_rate (.finite q))
        = max (-32768) (min 32767 (ratTrunc (clampExtreme q / ANGULAR_RATE_SCALE))) := by
          simp only [encode_angular_rate, toScalable]
          exact decodeInt16le_packInt16le (by omega) (by omega)
      _ = max (-32768) (min 32767 (ratTrunc (q / ANGULAR_RATE_SCALE))) := habs
  · have habs : max (-2147483648 : ℤ) (min 2147483647 (ratTrunc (clampExtreme q / ANGLE_SCALE))) =
        max (-2147483648) (min 2147483647 (ratTrunc (q / ANGLE_SCALE))) := by
      refine sat_ratTrunc_clampExtreme ?_ ?_ ?_ ?_ q
      · norm_num [ANGLE_SCALE]
      · norm_num [ANGLE_SCALE]
      · norm_num [ANGLE_SCALE]
      · norm_num
    calc decodeInt32le (encode_angle (.finite q))
        = max (-2147483648) (min 2147483647 (ratTrunc (clampExtreme q / ANGLE_SCALE))) := by
          simp only [encode_angle, toScalable]
          exact decodeInt32le_packInt32le (by omega) (by omega)
      _ = max (-2147483648) (min 2147483647 (ratTrunc (q / ANGLE_SCALE))) := habs

/-- The value that the guard logic substitutes for a non-finite or extreme
input before fixed-point scaling: NaN defaults to zero (via the exception
fallback), infinities and extreme finite values are clamped to ±1e6. -/
def clampOrZero : PFloat → ℚ
  | .nan => 0
  | .inf => 1000000
  | .neginf => -1000000
  | .finite q => clampExtreme q

theorem abs_clampExtreme_le {q : ℚ} (h : |q| > 1000000) : |clampExtreme q| ≤ 1000000 := by
  unfold clampExtreme
  rw [if_pos h, abs_le]
  exact ⟨le_max_left _ _, max_le (by norm_num) (min_le_left _ _)⟩

theorem clampExtreme_of_abs_le {q : ℚ} (h : |q| ≤ 1000000) : clampExtreme q = q := by
  unfold clampExtreme
  rw [if_neg (not_lt.2 h)]

theorem clampExtreme_idem (q : ℚ) : clampExtreme (clampExtreme q) = clampExtreme q := by
  by_cases h : |q| > 1000000
  · exact clampExtreme_of_abs_le (abs_clampExtreme_le h)
  · rw [clampExtreme_of_abs_le (not_lt.1 h), clampExtreme_of_abs_le (not_lt.1 h)]

theorem encode_angular_rate_zero : encode_angular_rate (.finite 0) = packInt16le 0 := by
  simp only [encode_angular_rate, toScalable]
  rw [clampExtreme_of_abs_le (by norm_num), zero_div,
    ratTrunc_of_nonneg le_rfl, Int.floor_zero]
  norm_num

theorem encode_angle_zero : encode_angle (.finite 0) = packInt32le 0 := by
  simp only [encode_angle, toScalable]
  rw [clampExtreme_of_abs_le (by norm_num), zero_div,
    ratTrunc_of_nonneg le_rfl, Int.floor_zero]
  norm_num

/-- C5: every non-finite or extreme (|v| > 1e6) rate-sensor input value is
replaced — clamped into [-1e6, 1e6], or defaulted to zero for NaN — before
fixed-point scaling instead of being propagated, and the field encoders
and the frame encoder still return well-formed byte strings of the fixed
lengths (2, 4 and 27 bytes); no exception escapes and no undefined bit
pattern is emitted. -/
theorem ars_bad_input_clamped (v : PFloat)
    (h : v = .nan ∨ v = .inf ∨ v = .neginf ∨ ∃ q, v = .finite q ∧ |q| > 1000000) :
    |clampOrZero v| ≤ 1000000 ∧
    encode_angular_rate v = encode_angular_rate (.finite (clampOrZero v)) ∧
    encode_angle v = encode_angle (.finite (clampOrZero v)) ∧
    (encode_angular_rate v).length = 2 ∧ (encode_angle v).length = 4 ∧
    ∀ p : RateSensorPacket, (encode_message p).length = 27 := by
  refine ⟨?_, ?_, ?_, length_encode_angular_rate v, length_encode_angle v,
    fun p => length_encode_message p⟩
  · rcases h with rfl | rfl | rfl | ⟨q, rfl, hq⟩
    · norm_num [clampOrZero]
    · norm_num [clampOrZero]
    · norm_num [clampOrZero]
    · exact abs_clampExtreme_le hq
  · rcases h with rfl | rfl | rfl | ⟨q, rfl, hq⟩
    · rw [show clampOrZero .nan = 0 from rfl, encode_angular_rate_zero]
      rfl
    · simp only [encode_angular_rate, toScalable, clampOrZero]
      rw [clampExtreme_of_abs_le (by norm_num)]
    · simp only [encode_angular_rate, toScalable, clampOrZero]
      rw [clampExtreme_of_abs_le (by norm_num)]
    · simp only [encode_angular_rate, toScalable, clampOrZero]
      rw [clampExtreme_idem]
  · rcases h with rfl | rfl | rfl | ⟨q, rfl, hq⟩
    · rw [show clampOrZero .nan = 0 from rfl, encode_angle_zero]
      rfl
    · simp only [encode_angle, toScalable, clampOrZero]
      rw [clampExtreme_of_abs_le (by norm_num)]
    · simp only [encode_angle, toScalable, clampOrZero]
      rw [clampExtreme_of_abs_le (by norm_num)]
    · simp only [encode_angle, toScalable, clampOrZero]
      rw [clampExtreme_idem]

/-- C5 witness at the concrete bad inputs NaN and +Infinity. -/
theorem ars_bad_input_clamped_witness :
    encode_angular_rate .nan = encode_angular_rate (.finite (clampOrZero .nan)) ∧
    (encode_angular_rate .inf).length = 2 :=
  ⟨(ars_bad_input_clamped .nan (Or.inl rfl)).2.1,
   (ars_bad_input_clamped .inf (Or.inr (Or.inl rfl))).2.2.2.1⟩

theorem cond_or_testBit (b : Bool) (w x : ℕ) (i : ℕ) :
    (if b then w ||| x else w).testBit i = (w.testBit i || (b && x.testBit i)) := by
  cases b <;> simp [Nat.testBit_lor]

theorem cond_testBit (b : Bool) (x : ℕ) (i : ℕ) :
    (if b then x else 0).testBit i = (b && x.testBit i) := by
  cases b <;> simp

theorem testBit_build_status_word_1_4 (k m : ℕ) (rsf gf agc : Bool) :
    (build_status_word_1 k m rsf gf agc).testBit 4 = rsf := by
  simp [build_status_word_1, cond_or_testBit, Nat.testBit_lor, Nat.testBit_and,
    Nat.testBit_shiftLeft,
    show Nat.testBit 3 4 = false from by decide,
    show Nat.testBit 3 2 = false from by decide,
    show Nat.testBit 16 4 = true from by decide,
    show Nat.testBit 32 4 = false from by decide,
    show Nat.testBit 128 4 = false from by decide,
    show Nat.testBit 65535 4 = true from by decide]

theorem testBit_build_status_word_1_5 (k m : ℕ) (rsf gf agc : Bool) :
    (build_status_word_1 k m rsf gf agc).testBit 5 = gf := by
  simp [build_status_word_1, cond_or_testBit, Nat.testBit_lor, Nat.testBit_and,
    Nat.testBit_shiftLeft,
    show Nat.testBit 3 5 = false from by decide,
    show Nat.testBit 3 3 = false from by decide,
    show Nat.testBit 16 5 = false from by decide,
    show Nat.testBit 32 5 = true from by decide,
    show Nat.testBit 128 5 = false from by decide,
    show Nat.testBit 65535 5 = true from by decide]

theorem testBit_build_status_word_3 (a b c : Bool) (fa fb fc fd ok : Bool) :
    (build_status_word_3 a b c fa fb fc fd ok).testBit 11 = fa ∧
    (build_status_word_3 a b c fa fb fc fd ok).testBit 12 = fb ∧
    (build_status_word_3 a b c fa fb fc fd ok).testBit 13 = fc ∧
    (build_status_word_3 a b c fa fb fc fd ok).testBit 14 = fd := by
  refine ⟨?_, ?_, ?_, ?_⟩ <;>
    simp [build_status_word_3, cond_or_testBit, cond_testBit, Nat.testBit_lor,
      Nat.testBit_and,
      show ∀ i, i ∈ [11, 12, 13, 14] →
          ((Nat.testBit 256 i = false) ∧ (Nat.testBit 512 i = false) ∧
           (Nat.testBit 1024 i = false) ∧ (Nat.testBit 32768 i = false) ∧
           (Nat.testBit 65535 i = true)) from by decide,
      show Nat.testBit 2048 11 = true from by decide,
      show Nat.testBit 4096 11 = false from by decide,
      show Nat.testBit 8192 11 = false from by decide,
      show Nat.testBit 16384 11 = false from by decide,
      show Nat.testBit 2048 12 = false from by decide,
      show Nat.testBit 4096 12 = true from by decide,
      show Nat.testBit 8192 12 = false from by decide,
      show Nat.testBit 16384 12 = false from by decide,
      show Nat.testBit 2048 13 = false from by decide,
      show Nat.testBit 4096 13 = false from by decide,
      show Nat.testBit 8192 13 = true from by decide,
      show Nat.testBit 16384 13 = false from by decide,
      show Nat.testBit 2048 14 = false from by decide,
      show Nat.testBit 4096 14 = false from by decide,
      show Nat.testBit 8192 14 = false from by decide,
      show Nat.testBit 16384 14 = true from by decide]

/-- C6 (amended): in each produced frame the rate-sensor-failed bit (bit 4
of status word 1) is set exactly when the current sample's primary and
redundant rates are all zero — the check is per-sample, not latched since
start — and the gyro-failed bit (bit 5 of word 1) together with the three
per-gyro FDC bits (bits 11-13 of word 3) and the FDC-failed bit (bit 14 of
word 3) are set exactly when the maximum absolute difference between the
primary and redundant rate channels of the current sample exceeds
0.1 rad/s. -/
theorem ars_status_word_bits (c : ℕ) (d : ARSData) :
    ((update_status_words c d).1.testBit 4 = !hasData d) ∧
    ((update_status_words c d).1.testBit 4 = true ↔
      d.prime_x = .finite 0 ∧ d.prime_y = .finite 0 ∧ d.prime_z = .finite 0 ∧
      d.redundant_x = .finite 0 ∧ d.redundant_y = .finite 0 ∧
      d.redundant_z = .finite 0) ∧
    ((update_status_words c d).1.testBit 5 = hasDiscrepancy d) ∧
    ((update_status_words c d).2.2.testBit 11 = hasDiscrepancy d) ∧
    ((update_status_words c d).2.2.testBit 12 = hasDiscrepancy d) ∧
    ((update_status_words c d).2.2.testBit 13 = hasDiscrepancy d) ∧
    ((update_status_words c d).2.2.testBit 14 = hasDiscrepancy d) := by
  have h4 : (update_status_words c d).1.testBit 4 = !hasData d :=
    testBit_build_status_word_1_4 _ _ _ _ _
  have h3 := testBit_build_status_word_3 (hasData d) (hasData d) (hasData d)
    (hasDiscrepancy d) (hasDiscrepancy d) (hasDiscrepancy d) (hasDiscrepancy d)
    (hasData d && !hasDiscrepancy d)
  refine ⟨h4, ?_, testBit_build_status_word_1_5 _ _ _ _ _, h3.1, h3.2.1, h3.2.2.1, h3.2.2.2⟩
  rw [h4, Bool.not_eq_true']
  simp only [hasData, pfloatNeZero]
  simp
  tauto

/-- Test vector: a sample whose primary and redundant x-rates are 1 rad/s
(non-zero, no discrepancy), all other channels zero. -/
def oneInput12 : List PFloat :=
  [.finite 1, .finite 0, .finite 0, .finite 1, .finite 0, .finite 0,
   .finite 0, .finite 0, .finite 0, .finite 0, .finite 0, .finite 0]

/-- C6 counterexample: run the encoder on a non-zero sample followed by an
all-zero sample. The first frame carries a non-zero rate, yet the second
frame still sets the rate-sensor-failed bit: the bit reflects only the
current sample, it is not latched on "no non-zero data seen since
start". -/
theorem ars_rate_sensor_failed_not_latched :
    ((runARSPackets false (fun v => v) 0 [oneInput12, zeroInput12]).getD 0 none).map
        (fun p => pfloatNeZero p.angular_rate_x) = some true ∧
    ((runARSPackets false (fun v => v) 0 [oneInput12, zeroInput12]).getD 1 none).map
        (fun p => p.status_word_1.testBit 4) = some true := by
  have hrun : runARSPackets false (fun v => v) 0 [oneInput12, zeroInput12] =
      [some (convert_ars_data 0 { prime_x := .finite 1, redundant_x := .finite 1 }).1,
       some (convert_ars_data 1 {}).1] := by
    simp [runARSPackets, convert_matlab_data, convert_ars_data, oneInput12, zeroInput12]
  rw [hrun]
  constructor
  · simp [convert_ars_data, pfloatNeZero]
  · have hd : hasData ({} : ARSData) = false := by
      simp [hasData, pfloatNeZero]
    simp [convert_ars_data, update_status_words, hd, testBit_build_status_word_1_4]

/-! ## Magnetometer encoder
(`installer_tcp/device_encoders/device_encoders/magnetometer_encoder.py`) -/

/-- `MagnetometerStatus` codes. -/
inductive MagStatus where
  | NORMAL
  | WARNING
  | ERROR
  | CRITICAL
  | CALIBRATION_MODE
  | MEMORY_ERROR
  | COMMUNICATION_ERROR
deriving DecidableEq

/-- The numeric `.value` of a `MagnetometerStatus`. -/
def magStatusValue : MagStatus → ℕ
  | .NORMAL => 0x00
  | .WARNING => 0x01
  | .ERROR => 0x02
  | .CRITICAL => 0x03
  | .CALIBRATION_MODE => 0x04
  | .MEMORY_ERROR => 0x05
  | .COMMUNICATION_ERROR => 0x06

/-- `MagnetometerPacket`; field values are finite floats (the encoders call
`int(...)` on them, which requires a finite value), `message_type_value`
is the `.value` of the `MessageType` member (MAGDATA = 0x01). -/
structure MagnetometerPacket where
  x_field : ℚ := 0
  y_field : ℚ := 0
  z_field : ℚ := 0
  temperature : ℚ := 25
  status : MagStatus := .NORMAL
  message_type_value : ℕ := 0x01
deriving DecidableEq

/-- `int(field) & 0xFFFF`: truncate toward zero, then two's-complement
wrap into 16 unsigned bits. -/
def toWireWord (f : ℚ) : ℕ := ((ratTrunc f) % 65536).toNat

/-- `CANEncoder.encode_magdata`: CAN id 0x101, payload of three big-endian
16-bit field words plus a status byte. -/
def can_encode_magdata (p : MagnetometerPacket) : ℕ × List ℕ :=
  (0x101,
   packUInt16be (toWireWord p.x_field) ++ packUInt16be (toWireWord p.y_field) ++
     packUInt16be (toWireWord p.z_field) ++ [magStatusValue p.status])

/-- One shift-and-conditionally-xor round of the CRC-16 inner loop. -/
def crc16Round (crc : ℕ) : ℕ :=
  if crc % 2 = 1 then (crc / 2) ^^^ 0xA001 else crc / 2

/-- Absorb one byte into the CRC state: xor it in, then run 8 rounds. -/
def crc16Byte (crc b : ℕ) : ℕ := crc16Round^[8] (crc ^^^ b)

/-- `RS485Encoder._calculate_crc16`: reflected CRC-16, polynomial 0xA001,
initial value 0xFFFF. -/
def calculate_crc16 (data : List ℕ) : ℕ := (data.foldl crc16Byte 0xFFFF) &&& 0xFFFF

/-- `RS485Encoder.encode_magdata`: a 4-byte header `pack('<BBH', type,
0x01, seq)`, then — as the source really does — a second command byte
0x01, the 7-byte payload, and the CRC over header + command + payload,
packed little-endian. -/
def rs485_encode_magdata (seq : ℕ) (p : MagnetometerPacket) : List ℕ :=
  let header := [p.message_type_value % 256, 0x01, seq % 256, seq / 256 % 256]
  let data := packUInt16le (toWireWord p.x_field) ++ packUInt16le (toWireWord p.y_field) ++
    packUInt16le (toWireWord p.z_field) ++ [magStatusValue p.status]
  let crc_data := header ++ [0x01] ++ data
  let crc := calculate_crc16 crc_data
  header ++ [0x01] ++ data ++ packUInt16le crc

/-- Read an unsigned big-endian 16-bit pair. -/
def decodeUInt16be (bs : List ℕ) : ℕ := 256 * bs.getD 0 0 + bs.getD 1 0

/-- Read an unsigned little-endian 16-bit pair. -/
def decodeUInt16le (bs : List ℕ) : ℕ := bs.getD 0 0 + 256 * bs.getD 1 0

theorem toWireWord_lt (f : ℚ) : toWireWord f < 65536 := by
  unfold toWireWord
  omega

theorem decodeUInt16be_packUInt16be {w : ℕ} (h : w < 65536) (rest : List ℕ) :
    decodeUInt16be (packUInt16be w ++ rest) = w := by
  simp only [packUInt16be, decodeUInt16be, List.cons_append, List.nil_append,
    List.getD, List.get?, Option.getD_some]
  omega

theorem decodeUInt16le_packUInt16le {w : ℕ} (h : w < 65536) (rest : List ℕ) :
    decodeUInt16le (packUInt16le w ++ rest) = w := by
  simp only [packUInt16le, decodeUInt16le, List.cons_append, List.nil_append,
    List.getD, List.get?, Option.getD_some]
  omega

theorem length_rs485_encode_magdata (seq : ℕ) (p : MagnetometerPacket) :
    (rs485_encode_magdata seq p).length = 14 := by
  simp [rs485_encode_magdata, packUInt16le]

/-- C4 counterexample: the RS485 data frame for the zero packet at
sequence 0 is 14 bytes long, not 13 — the command byte is packed inside
the 4-byte header and then appended once more before the payload. -/
theorem mag_rs485_not_13_bytes :
    (rs485_encode_magdata 0 {}).length = 14 ∧
    ¬ (rs485_encode_magdata 0 {}).length = 13 := by
  refine ⟨length_rs485_encode_magdata 0 {}, ?_⟩
  rw [length_rs485_encode_magdata 0 {}]
  omega

/-- C4 (amended): for every 3-float magnetometer input the RS485-encoded
data frame is exactly 14 bytes: a 4-byte header (message type, command,
16-bit little-endian sequence counter), a duplicated command byte, a
7-byte payload (three little-endian 16-bit field values plus one status
byte), and a trailing CRC-16 (polynomial 0xA001, initial value 0xFFFF)
over header + duplicated command + payload, packed little-endian. -/
theorem mag_rs485_frame_structure (seq : ℕ) (p : MagnetometerPacket) :
    (rs485_encode_magdata seq p).length = 14 ∧
    ∃ header payload crcbytes,
      rs485_encode_magdata seq p = header ++ [0x01] ++ payload ++ crcbytes ∧
      header = [p.message_type_value % 256, 0x01, seq % 256, seq / 256 % 256] ∧
      payload.length = 7 ∧ crcbytes.length = 2 ∧
      payload = packUInt16le (toWireWord p.x_field) ++ packUInt16le (toWireWord p.y_field) ++
        packUInt16le (toWireWord p.z_field) ++ [magStatusValue p.status] ∧
      decodeUInt16le crcbytes = calculate_crc16 (header ++ [0x01] ++ payload) := by
  have hcrc : calculate_crc16 ([p.message_type_value % 256, 0x01, seq % 256, seq / 256 % 256] ++
      [0x01] ++ (packUInt16le (toWireWord p.x_field) ++ packUInt16le (toWireWord p.y_field) ++
        packUInt16le (toWireWord p.z_field) ++ [magStatusValue p.status])) < 65536 := by
    have h := Nat.and_le_right (n := (([p.message_type_value % 256, 0x01, seq % 256,
      seq / 256 % 256] ++ [0x01] ++ (packUInt16le (toWireWord p.x_field) ++
        packUInt16le (toWireWord p.y_field) ++ packUInt16le (toWireWord p.z_field) ++
        [magStatusValue p.status])).foldl crc16Byte 0xFFFF)) (m := 0xFFFF)
    calc calculate_crc16 _ ≤ 0xFFFF := h
      _ < 65536 := by norm_num
  refine ⟨length_rs485_encode_magdata seq p,
    [p.message_type_value % 256, 0x01, seq % 256, seq / 256 % 256], _, packUInt16le _,
    rfl, rfl, by simp [packUInt16le], rfl, rfl, ?_⟩
  simpa using decodeUInt16le_packUInt16le hcrc []

/-- C9: in both the CAN and the RS485 magnetometer data encodings, each
field value f is placed on the wire as `trunc(f) mod 2^16` (Python
`int(f) & 0xFFFF`): big-endian words at payload offsets 0/2/4 of the CAN
payload, little-endian words at offsets 5/7/9 of the RS485 frame. A
truncated value outside [-32768, 32767] wraps modulo 2^16 instead of
saturating: 70000 nT encodes as 4464. -/
theorem mag_field_words_wrap (p : MagnetometerPacket) (seq : ℕ) :
    decodeUInt16be (can_encode_magdata p).2 = toWireWord p.x_field ∧
    decodeUInt16be ((can_encode_magdata p).2.drop 2) = toWireWord p.y_field ∧
    decodeUInt16be ((can_encode_magdata p).2.drop 4) = toWireWord p.z_field ∧
    decodeUInt16le ((rs485_encode_magdata seq p).drop 5) = toWireWord p.x_field ∧
    decodeUInt16le ((rs485_encode_magdata seq p).drop 7) = toWireWord p.y_field ∧
    decodeUInt16le ((rs485_encode_magdata seq p).drop 9) = toWireWord p.z_field ∧
    toWireWord 70000 = 4464 ∧ ¬ toWireWord 70000 = 32767 := by
  have hx := toWireWord_lt p.x_field
  have hy := toWireWord_lt p.y_field
  have hz := toWireWord_lt p.z_field
  have h70000 : toWireWord 70000 = 4464 := by
    unfold toWireWord
    rw [ratTrunc_of_nonneg (by norm_num), show ⌊(70000 : ℚ)⌋ = 70000 from by norm_num]
    omega
  refine ⟨?_, ?_, ?_, ?_, ?_, ?_, h70000, by omega⟩ <;>
    simp [can_encode_magdata, rs485_encode_magdata, packUInt16be, packUInt16le,
      decodeUInt16be, decodeUInt16le, List.getD] <;>
    omega

/-! ## Reaction wheel encoder
(`installer_complete/device_encoders/reaction_wheel_encoder.py`).
The three telemetry encoders serialize temperature / voltage / power /
speed / current as big-endian 32-bit floats (`struct.pack('>f', ...)`);
that serializer is abstracted as a parameter `packF32`, since the claims
below hold for every serializer. -/

/-- `RWAStatus` codes. -/
inductive RWAStatus where
  | NORMAL
  | WARNING
  | ERROR
  | CRITICAL
  | FAULT
deriving DecidableEq

/-- `RWAMode` operation modes. -/
inductive RWAMode where
  | STANDBY
  | OPERATE
deriving DecidableEq

/-- `RWAPacket`; `telemetry_type_value` holds the `.value` of the
telemetry type (HEALTH_STATUS = 0x15). -/
structure RWAPacket where
  wheel_speed : ℚ := 0
  motor_current : ℚ := 0
  temperature : ℚ := 25
  bus_voltage : ℚ := 28
  power_consumption : ℚ := 0
  status : RWAStatus := .NORMAL
  mode : RWAMode := .OPERATE
  telemetry_type_value : ℕ := 0x15
deriving DecidableEq

/-- `RWAMessageEncoder._build_status_byte`: fault flag at bit 7, standby
flag at bit 0. -/
def build_status_byte (p : RWAPacket) : ℕ :=
  let s := 0
  let s := if p.status = RWAStatus.FAULT then s ||| 0x80 else s
  let s := if p.mode = RWAMode.STANDBY then s ||| 0x01 else s
  s &&& 0xFF

/-- `RWAMessageEncoder._build_health_status_word` (9.76 A and the voltage
and speed thresholds read as exact decimals). -/
def build_health_status_word (p : RWAPacket) : ℕ :=
  let s := 0
  let s := if p.motor_current > 244 / 25 then s ||| 0x01 else s
  let s := if p.bus_voltage > 42 then s ||| 0x02 else s
  let s := if p.bus_voltage < 19 then s ||| 0x04 else s
  let s := if p.wheel_speed > 4200 then s ||| 0x80 else s
  s &&& 0xFFFF

/-- `RWAMessageEncoder._calculate_crc`: bytewise XOR. -/
def xorChecksum (data : List ℕ) : ℕ := (data.foldl (fun a b => a ^^^ b) 0) &&& 0xFF

/-- `RWAMessageEncoder.encode_health_status` (OpCode 0x15 frame). -/
def encode_health_status (packF32 : ℚ → List ℕ) (adr : ℕ) (p : RWAPacket) : List ℕ :=
  let message := adr :: p.telemetry_type_value :: build_status_byte p ::
    ([0, 0, 0] ++ [0x01] ++ packUInt16le (build_health_status_word p) ++ [0] ++
      packF32 p.temperature ++ packF32 p.bus_voltage ++ packF32 p.power_consumption)
  message ++ [xorChecksum (message.drop 1)]

/-- `RWAMessageEncoder.encode_speed_telemetry` (OpCode 0x16 frame). -/
def encode_speed_telemetry (packF32 : ℚ → List ℕ) (adr : ℕ) (p : RWAPacket) : List ℕ :=
  let message := adr :: p.telemetry_type_value :: build_status_byte p ::
    ([0, 0, 0] ++ packF32 p.wheel_speed)
  message ++ [xorChecksum (message.drop 1)]

/-- `RWAMessageEncoder.encode_current_telemetry` (OpCode 0x17 frame). -/
def encode_current_telemetry (packF32 : ℚ → List ℕ) (adr : ℕ) (p : RWAPacket) : List ℕ :=
  let message := adr :: p.telemetry_type_value :: build_status_byte p ::
    ([0, 0, 0] ++ packF32 p.motor_current)
  message ++ [xorChecksum (message.drop 1)]

/-- `ReactionWheelEncoder._update_status_and_mode`: a 3-way threshold
cascade (CRITICAL / WARNING / NORMAL) plus the standby-speed test. -/
def rw_update_status_and_mode (p : RWAPacket) : RWAPacket :=
  let status :=
    if p.wheel_speed > 4200 ∨ p.motor_current > 244 / 25 ∨
        p.bus_voltage > 42 ∨ p.bus_voltage < 19 then RWAStatus.CRITICAL
    else if p.wheel_speed > 4000 ∨ p.motor_current > 8 ∨
        p.bus_voltage > 40 ∨ p.bus_voltage < 20 then RWAStatus.WARNING
    else RWAStatus.NORMAL
  let mode := if |p.wheel_speed| < 10 then RWAMode.STANDBY else RWAMode.OPERATE
  { p with status := status, mode := mode }

/-- `ReactionWheelEncoder.convert_matlab_data`: exactly 4 floats (speed,
current, temperature, voltage); power = |current × voltage|; then the
status/mode derivation. -/
def rw_convert_matlab_data : List ℚ → Option RWAPacket
  | [s, c, t, v] =>
    some (rw_update_status_and_mode
      { wheel_speed := s, motor_current := c, temperature := t, bus_voltage := v,
        power_consumption := |c * v| })
  | _ => none

theorem rw_status_mem (p : RWAPacket) :
    (rw_update_status_and_mode p).status = RWAStatus.CRITICAL ∨
    (rw_update_status_and_mode p).status = RWAStatus.WARNING ∨
    (rw_update_status_and_mode p).status = RWAStatus.NORMAL := by
  unfold rw_update_status_and_mode
  split_ifs <;> simp

theorem testBit7_build_status_byte {p : RWAPacket} (h : p.status ≠ RWAStatus.FAULT) :
    (build_status_byte p).testBit 7 = false := by
  by_cases hm : p.mode = RWAMode.STANDBY <;>
    simp [build_status_byte, h, hm] <;> decide

/-- C10: the threshold-based status derivation only ever produces NORMAL,
WARNING or CRITICAL (never ERROR or FAULT), so the fault bit (0x80) of the
packed status byte — byte 2 of every health, speed and current telemetry
frame — is always clear. -/
theorem rw_status_never_fault (xs : List ℚ) (p : RWAPacket)
    (h : rw_convert_matlab_data xs = some p) :
    (p.status = RWAStatus.NORMAL ∨ p.status = RWAStatus.WARNING ∨
      p.status = RWAStatus.CRITICAL) ∧
    (build_status_byte p).testBit 7 = false ∧
    ∀ packF32 adr,
      (encode_health_status packF32 adr p).getD 2 0 = build_status_byte p ∧
      (encode_speed_telemetry packF32 adr p).getD 2 0 = build_status_byte p ∧
      (encode_current_telemetry packF32 adr p).getD 2 0 = build_status_byte p := by
  rcases xs with _ | ⟨a, _ | ⟨b, _ | ⟨c, _ | ⟨d, _ | ⟨e, rest⟩⟩⟩⟩⟩ <;>
    simp only [rw_convert_matlab_data, Option.some.injEq, reduceCtorEq] at h
  subst h
  have hmem := rw_status_mem
    { wheel_speed := a, motor_current := b, temperature := c, bus_voltage := d,
      power_consumption := |b * d| }
  have hnf : (rw_update_status_and_mode
      { wheel_speed := a, motor_current := b, temperature := c, bus_voltage := d,
        power_consumption := |b * d| }).status ≠ RWAStatus.FAULT := by
    rcases hmem with h1 | h1 | h1 <;> rw [h1] <;> simp
  refine ⟨by tauto, testBit7_build_status_byte hnf, fun packF32 adr => ⟨rfl, rfl, rfl⟩⟩

/-- C10 witness at the concrete input [0, 0, 0, 0]. -/
theorem rw_status_never_fault_witness :
    (build_status_byte (rw_update_status_and_mode
      { wheel_speed := 0, motor_current := 0, temperature := 0, bus_voltage := 0,
        power_consumption := |(0 : ℚ) * 0| })).testBit 7 = false :=
  (rw_status_never_fault [0, 0, 0, 0] _ rfl).2.1

/-! ## Channel listeners and endianness handling
(`installer_tcp/ars_tcp_socket_reader_endianness.py`,
`src/ars_socket_reader_endianness.py`, `src/ars_tcp_socket_reader_enhanced.py`).
8-byte buffers are decoded as IEEE-754 doubles; the decoding is modelled
bit-exactly (`decodeDoubleBits`), with finite values as exact rationals. -/

/-- Little-endian bytes to an unsigned integer. -/
def leBytesToNat (bs : List ℕ) : ℕ := bs.foldr (fun b acc => b + 256 * acc) 0

/-- Big-endian bytes to an unsigned integer. -/
def beBytesToNat (bs : List ℕ) : ℕ := bs.foldl (fun acc b => 256 * acc + b) 0

/-- Bit-exact IEEE-754 binary64 decoding of a 64-bit pattern. -/
def decodeDoubleBits (bits : ℕ) : PFloat :=
  let s : ℕ := bits / 2 ^ 63 % 2
  let e : ℕ := bits / 2 ^ 52 % 2 ^ 11
  let m : ℕ := bits % 2 ^ 52
  if e = 2047 then
    if m = 0 then (if s = 1 then .neginf else .inf) else .nan
  else
    let mag : ℚ :=
      if e = 0 then (m : ℚ) * (2 : ℚ) ^ (-(1074 : ℤ))
      else ((2 ^ 52 + m : ℕ) : ℚ) * (2 : ℚ) ^ ((e : ℤ) - 1075)
    .finite (if s = 1 then -mag else mag)

/-- `struct.unpack('<d', data)`. -/
def unpack_le_double (bs : List ℕ) : PFloat := decodeDoubleBits (leBytesToNat bs)

/-- `struct.unpack('>d', data)`. -/
def unpack_be_double (bs : List ℕ) : PFloat := decodeDoubleBits (beBytesToNat bs)

/-- The per-channel endianness verdict (`EndiannessDetection`). -/
structure EndiannessDetection where
  is_big_endian : Bool
  confidence : ℚ

/-- The plausibility test of the TCP endianness reader's fallback:
`abs(v) < 1e6 and abs(v) > 1e-6` (false for NaN and infinities). -/
def tcpReasonable : PFloat → Bool
  | .finite q => decide (|q| < 1000000) && decide (|q| > 1 / 1000000)
  | _ => false

/-- The both-ways fallback of
`ars_tcp_socket_reader_endianness._parse_float_data_with_endianness`:
pick the single plausible interpretation, default to little-endian when
both or neither is plausible — the chosen value is returned as is. -/
def tcpFallback (data : List ℕ) : Option PFloat :=
  let le_value := unpack_le_double data
  let be_value := unpack_be_double data
  if tcpReasonable le_value && !tcpReasonable be_value then some le_value
  else if tcpReasonable be_value && !tcpReasonable le_value then some be_value
  else some le_value

/-- `_parse_float_data_with_endianness` of the TCP endianness reader:
with a verdict above confidence 0.5 decode with it and discard non-finite
results; otherwise run the both-ways fallback. -/
def parse_float_tcp (det : Option EndiannessDetection) (data : List ℕ) : Option PFloat :=
  if data.length ≠ 8 then none
  else
    match det with
    | some d =>
      if d.confidence > 1 / 2 then
        let v := if d.is_big_endian then unpack_be_double data else unpack_le_double data
        if v.isFinite then some v else none
      else tcpFallback data
    | none => tcpFallback data

/-- The write step of `_process_packet_data` for one complete 8-byte
packet: a parsed value — whatever it is — is stored into the latest-value
vector at the channel index; a `none` result is discarded. -/
def process_packet_sample (det : Option EndiannessDetection) (vec : List PFloat)
    (i : ℕ) (data : List ℕ) : List PFloat × Bool :=
  match parse_float_tcp det data with
  | some v => (vec.set i v, true)
  | none => (vec, false)

/-- The plausibility test of the UDP endianness reader: `abs(v) < 1000`
and finite. -/
def udpReasonable : PFloat → Bool
  | .finite q => decide (|q| < 1000)
  | _ => false

/-- The fallback endianness choice of
`ars_socket_reader_endianness._parse_float_data_with_endianness`. -/
def udpFallbackBig (data : List ℕ) : Bool :=
  let le_value := unpack_le_double data
  let be_value := unpack_be_double data
  if udpReasonable le_value && !udpReasonable be_value then false
  else if udpReasonable be_value && !udpReasonable le_value then true
  else false

/-- `_parse_float_data_with_endianness` of the UDP endianness reader: the
verdict is used only above confidence 0.7; the chosen decoding is then
validated (NaN/Infinity discarded). -/
def parse_float_udp (det : Option EndiannessDetection) (data : List ℕ) : Option PFloat :=
  if data.length ≠ 8 then none
  else
    let is_big :=
      match det with
      | some d => if d.confidence > 7 / 10 then d.is_big_endian else udpFallbackBig data
      | none => udpFallbackBig data
    let v := if is_big then unpack_be_double data else unpack_le_double data
    if v.isFinite then some v else none

/-- The per-channel quality counters relevant to parsing. -/
structure QualityStats where
  parse_errors : ℕ := 0
  size_violations : ℕ := 0
deriving DecidableEq

/-- `_parse_float_data` of the enhanced TCP reader: counts a size
violation for a wrong-length buffer, counts a parse error and discards
when the decoded double is NaN/Infinity, else returns the finite value. -/
def parse_float_data_enhanced (is_big_endian : Bool) (data : List ℕ)
    (stats : QualityStats) : Option ℚ × QualityStats :=
  if data.length ≠ 8 then
    (none, { stats with size_violations := stats.size_violations + 1 })
  else
    match (if is_big_endian then unpack_be_double data else unpack_le_double data) with
    | .finite q => (some q, stats)
    | _ => (none, { stats with parse_errors := stats.parse_errors + 1 })

/-- C7 counterexample: the 8-byte buffer of all 0xFF decodes to NaN under
both byte orders. With no (or a low-confidence) verdict the TCP
endianness reader's fallback finds neither interpretation plausible and
returns the little-endian decode — NaN — as the default, and the write
step stores that NaN into the shared latest-value vector. (That reader
has no parse-errors counter at all.) -/
theorem tcp_nan_written :
    parse_float_tcp none (List.replicate 8 255) = some PFloat.nan ∧
    (process_packet_sample none [PFloat.finite 0] 0 (List.replicate 8 255)).1 =
      [PFloat.nan] ∧
    PFloat.nan.isFinite = false := by
  refine ⟨by decide, ?_, rfl⟩
  have h : parse_float_tcp none (List.replicate 8 255) = some PFloat.nan := by decide
  simp only [process_packet_sample]
  rw [h]
  rfl

/-- C7 (amended): the enhanced TCP reader increments `parse_errors` and
discards every 8-byte sample whose decode is NaN/Infinity, and the TCP
endianness reader discards such a sample (without any counter) when a
verdict above confidence 0.5 is in force; but in the low-confidence
fallback of the TCP endianness reader a sample that is implausible under
both byte orders is passed through as its little-endian decode and
written into the shared latest-value vector, finite or not. -/
theorem parse_nonfinite_handling :
    (∀ (isBig : Bool) (data : List ℕ) (stats : QualityStats),
      data.length = 8 →
      (if isBig then unpack_be_double data else unpack_le_double data).isFinite = false →
      parse_float_data_enhanced isBig data stats =
        (none, { stats with parse_errors := stats.parse_errors + 1 })) ∧
    (∀ (d : EndiannessDetection) (data : List ℕ),
      data.length = 8 → d.confidence > 1 / 2 →
      (if d.is_big_endian then unpack_be_double data else unpack_le_double data).isFinite
        = false →
      parse_float_tcp (some d) data = none) ∧
    (∀ (data : List ℕ) (vec : List PFloat) (i : ℕ),
      data.length = 8 →
      tcpReasonable (unpack_le_double data) = false →
      tcpReasonable (unpack_be_double data) = false →
      parse_float_tcp none data = some (unpack_le_double data) ∧
      (process_packet_sample none vec i data).1 = vec.set i (unpack_le_double data)) := by
  refine ⟨?_, ?_, ?_⟩
  · intro isBig data stats hlen hfin
    unfold parse_float_data_enhanced
    rw [if_neg (by omega)]
    cases hv : (if isBig then unpack_be_double data else unpack_le_double data) with
    | finite q => rw [hv] at hfin; exact absurd hfin (by simp [PFloat.isFinite])
    | nan => rfl
    | inf => rfl
    | neginf => rfl
  · intro d data hlen hconf hfin
    simp [parse_float_tcp, hlen, hconf, hfin]
    intro hc
    exact absurd hconf (not_lt.2 (by linarith))
  · intro data vec i hlen hle hbe
    have hparse : parse_float_tcp none data = some (unpack_le_double data) := by
      unfold parse_float_tcp tcpFallback
      rw [if_neg (by omega)]
      simp [hle, hbe]
    exact ⟨hparse, by simp [process_packet_sample, hparse]⟩

/-- C7 amended-claim witness: all-0xFF input through the enhanced parser
(counted and discarded) and through a confident verdict (discarded). -/
theorem parse_nonfinite_handling_witness :
    parse_float_data_enhanced false (List.replicate 8 255) {} =
      (none, { ({} : QualityStats) with
        parse_errors := ({} : QualityStats).parse_errors + 1 }) ∧
    parse_float_tcp (some { is_big_endian := false, confidence := 3 / 4 })
      (List.replicate 8 255) = none :=
  ⟨parse_nonfinite_handling.1 false (List.replicate 8 255) {} (by decide) (by decide),
   parse_nonfinite_handling.2.1 { is_big_endian := false, confidence := 3 / 4 }
     (List.replicate 8 255) (by decide) (by norm_num) (by decide)⟩

/-- The selection rule as the spec words it: pick whichever single
interpretation is plausible, default to little-endian when both or
neither is plausible. -/
def pickReasonable (reasonable : PFloat → Bool) (le be : PFloat) : PFloat :=
  if reasonable le && !reasonable be then le
  else if reasonable be && !reasonable le then be
  else le

theorem tcpFallback_eq_pickReasonable (data : List ℕ) :
    tcpFallback data =
      some (pickReasonable tcpReasonable (unpack_le_double data) (unpack_be_double data)) := by
  unfold tcpFallback pickReasonable
  by_cases h1 : tcpReasonable (unpack_le_double data) <;>
    by_cases h2 : tcpReasonable (unpack_be_double data) <;>
    simp [h1, h2]

theorem udpFallback_eq_pickReasonable (data : List ℕ) :
    (if udpFallbackBig data then unpack_be_double data else unpack_le_double data) =
      pickReasonable udpReasonable (unpack_le_double data) (unpack_be_double data) := by
  unfold udpFallbackBig pickReasonable
  by_cases h1 : udpReasonable (unpack_le_double data) <;>
    by_cases h2 : udpReasonable (unpack_be_double data) <;>
    simp [h1, h2]

/-- The little-endian byte string of the double 1.0. -/
def oneLEbytes : List ℕ := [0, 0, 0, 0, 0, 0, 0xF0, 0x3F]

theorem unpack_le_oneLEbytes : unpack_le_double oneLEbytes = .finite 1 := by
  unfold unpack_le_double
  rw [show leBytesToNat oneLEbytes = 4607182418800017408 from by decide]
  unfold decodeDoubleBits
  norm_num

theorem unpack_be_oneLEbytes :
    unpack_be_double oneLEbytes = .finite (61503 / 2 ^ 1074) := by
  unfold unpack_be_double
  rw [show beBytesToNat oneLEbytes = 61503 from by decide]
  unfold decodeDoubleBits
  norm_num

/-- C8 counterexample: in the UDP endianness reader the cited code uses
the verdict only above confidence 0.7, not 0.5. With a big-endian verdict
of confidence 0.6 (> 0.5) and the bytes of little-endian 1.0 — whose
big-endian reading is a tiny plausible subnormal — the listener falls
back, finds both interpretations plausible, and returns the little-endian
value 1.0 instead of the verdict's big-endian decode. -/
theorem udp_verdict_confidence_counterexample :
    ((3 : ℚ) / 5 > 1 / 2) ∧
    parse_float_udp (some { is_big_endian := true, confidence := 3 / 5 }) oneLEbytes =
      some (PFloat.finite 1) ∧
    unpack_be_double oneLEbytes ≠ PFloat.finite 1 := by
  have hle := unpack_le_oneLEbytes
  have hbe := unpack_be_oneLEbytes
  have hbabs : |(61503 : ℚ) / 2 ^ 1074| < 1000 := by
    rw [abs_of_pos (by positivity), div_lt_iff (by positivity)]
    norm_num
  have hne : (61503 : ℚ) / 2 ^ 1074 ≠ 1 := by
    intro h
    rw [div_eq_iff (show (0 : ℚ) < 2 ^ 1074 by positivity).ne'] at h
    norm_num at h
  refine ⟨by norm_num, ?_, ?_⟩
  · have hrle : udpReasonable (unpack_le_double oneLEbytes) = true := by
      rw [hle]
      simp [udpReasonable]
    have hrbe : udpReasonable (unpack_be_double oneLEbytes) = true := by
      rw [hbe]
      simp [udpReasonable, hbabs]
    have hbig : udpFallbackBig oneLEbytes = false := by
      unfold udpFallbackBig
      simp [hrle, hrbe]
    have hlen8 : oneLEbytes.length = 8 := rfl
    simp [parse_float_udp, hlen8, hbig, hle, PFloat.isFinite,
      show ¬ ((3 : ℚ) / 5 > 7 / 10) from by norm_num]
  · rw [hbe]
    simp [hne]

/-- C8 (amended): the TCP endianness reader decodes with the verdict
exactly when one exists with confidence above 0.5 (discarding a
non-finite result); otherwise it decodes both ways and returns the single
plausible interpretation under its bound 1e-6 < |v| < 1e6, defaulting to
little-endian when both or neither is plausible. The UDP endianness
reader does the same with confidence threshold 0.7 and plausibility bound
|v| < 1000, validating the chosen decode for finiteness. -/
theorem endianness_verdict_usage :
    (∀ (d : EndiannessDetection) (data : List ℕ), data.length = 8 →
      d.confidence > 1 / 2 →
      parse_float_tcp (some d) data =
        (if (if d.is_big_endian then unpack_be_double data
              else unpack_le_double data).isFinite
         then some (if d.is_big_endian then unpack_be_double data
              else unpack_le_double data)
         else none)) ∧
    (∀ (det : Option EndiannessDetection) (data : List ℕ), data.length = 8 →
      (det = none ∨ ∃ d, det = some d ∧ ¬ d.confidence > 1 / 2) →
      parse_float_tcp det data =
        some (pickReasonable tcpReasonable (unpack_le_double data)
          (unpack_be_double data))) ∧
    (∀ (d : EndiannessDetection) (data : List ℕ), data.length = 8 →
      d.confidence > 7 / 10 →
      parse_float_udp (some d) data =
        (if (if d.is_big_endian then unpack_be_double data
              else unpack_le_double data).isFinite
         then some (if d.is_big_endian then unpack_be_double data
              else unpack_le_double data)
         else none)) ∧
    (∀ (det : Option EndiannessDetection) (data : List ℕ), data.length = 8 →
      (det = none ∨ ∃ d, det = some d ∧ ¬ d.confidence > 7 / 10) →
      parse_float_udp det data =
        (if (pickReasonable udpReasonable (unpack_le_double data)
              (unpack_be_double data)).isFinite
         then some (pickReasonable udpReasonable (unpack_le_double data)
              (unpack_be_double data))
         else none)) := by
  refine ⟨?_, ?_, ?_, ?_⟩
  · intro d data hlen hconf
    simp only [parse_float_tcp, if_neg (show ¬ data.length ≠ 8 by omega), if_pos hconf]
  · intro det data hlen hdet
    have hfb := tcpFallback_eq_pickReasonable data
    rcases hdet with rfl | ⟨d, rfl, hd⟩
    · simp only [parse_float_tcp, if_neg (show ¬ data.length ≠ 8 by omega)]
      exact hfb
    · simp only [parse_float_tcp, if_neg (show ¬ data.length ≠ 8 by omega), if_neg hd]
      exact hfb
  · intro d data hlen hconf
    simp only [parse_float_udp, if_neg (show ¬ data.length ≠ 8 by omega), if_pos hconf]
  · intro det data hlen hdet
    have hfb := udpFallback_eq_pickReasonable data
    rcases hdet with rfl | ⟨d, rfl, hd⟩
    · simp only [parse_float_udp, if_neg (show ¬ data.length ≠ 8 by omega)]
      rw [hfb]
    · simp only [parse_float_udp, if_neg (show ¬ data.length ≠ 8 by omega), if_neg hd]
      rw [hfb]

/-- C8 amended-claim witness: a confident verdict over all-0xFF input is
used (and its NaN discarded) in the TCP reader; with no verdict the UDP
reader's fallback also ends at the (non-finite) little-endian default,
which its final validation discards. -/
theorem endianness_verdict_usage_witness :
    parse_float_tcp (some { is_big_endian := false, confidence := 3 / 4 })
      (List.replicate 8 255) = none ∧
    parse_float_udp none (List.replicate 8 255) = none := by
  constructor
  · have h := endianness_verdict_usage.1 { is_big_endian := false, confidence := 3 / 4 }
      (List.replicate 8 255) (by decide) (by norm_num)
    rw [h]
    decide
  · have h := endianness_verdict_usage.2.2.2 none (List.replicate 8 255)
      (by decide) (Or.inl rfl)
    rw [h]
    decide

end Aurora
